import Mathlib

set_option autoImplicit false

/-!
Verification of the Garmin Connect activity downloader (src/garmindl.py)
against its natural-language specification.

The development shallowly embeds the batch-download logic of
`download_activities` (garmindl.py, lines 84-168):

* filename construction (lines 99-112): name sanitization, date parsing
  with the `unknown_date` sentinel, decimal rendering of the activity id;
* the format dispatch and the ZIP-unwrap of the device-native (fit)
  format (lines 124-148), with the `zipfile` stdlib modelled as an
  abstract archive parser `List Nat -> Option (List (List Char x List Nat))`
  giving each entry name and decompressed content in central-directory
  order, and `ZipFile.read(name)` modelled as CPython implements it
  (`NameToInfo[name]`, i.e. the LAST entry carrying that name wins);
* the per-activity loop with its existence-based skip, per-item error
  isolation and the three counters (lines 89-159), over an abstract
  filesystem `List (List Char x List Nat)` of (path, content) entries;
* the limit truncation (lines 84-87) with Python slice semantics for an
  `int` limit, including negative values.

Strings are modelled as `List Char`; bytes as `List Nat`.  Remote
downloads are an oracle `Activity -> DlToken -> Except Unit (List Nat)`;
a write fault is an oracle `Activity -> Option Nat`, where `some k`
means the write call raises after the first `k` bytes reached the file
(CPython `open(path, "wb")` truncates/creates the file immediately, so
a failed write leaves the truncated prefix on disk).
-/

namespace Garmindl

/-- An activity record as consumed by `download_activities` (lines 94-97).
`activityId` is accessed unconditionally; the other fields go through
`dict.get` with a default, modelled by `Option` plus `Option.getD`.
Garmin activity ids are numeric, modelled as `Nat`. -/
structure Activity where
  activityId : Nat
  activityName : Option (List Char)
  startTimeLocal : Option (List Char)
  typeKey : Option (List Char)
deriving DecidableEq

/-- The closed set of `--format` values (argparse `choices`, line 202). -/
inductive FileFormat where
  | gpx
  | tcx
  | fit
  | original
deriving DecidableEq

/-- Wire-level download tokens (`client.ActivityDownloadFormat`). -/
inductive DlToken where
  | GPX
  | TCX
  | ORIGINAL
deriving DecidableEq

/-- Extension appended to the filename (line 111 uses the format string
itself; argparse restricts it to these four words). -/
def FileFormat.ext : FileFormat → List Char
  | .gpx => ['g', 'p', 'x']
  | .tcx => ['t', 'c', 'x']
  | .fit => ['f', 'i', 't']
  | .original => ['o', 'r', 'i', 'g', 'i', 'n', 'a', 'l']

/-! ## Decimal rendering of the activity id (f-string `{activity_id}`) -/

/-- The character for one decimal digit. -/
def digitChar : Nat → Char
  | 0 => '0'
  | 1 => '1'
  | 2 => '2'
  | 3 => '3'
  | 4 => '4'
  | 5 => '5'
  | 6 => '6'
  | 7 => '7'
  | 8 => '8'
  | 9 => '9'
  | _ => '?'

/-- Accumulate the decimal digits of `n` (most significant first) in
front of `acc`; structural recursion on a fuel bound so that the
definition evaluates inside the kernel (`fuel = n` always suffices
since each step divides `n` by ten). -/
def natDigitsGo : Nat → Nat → List Char → List Char
  | 0, _, acc => acc
  | fuel + 1, n, acc =>
    if n = 0 then acc
    else natDigitsGo fuel (n / 10) (digitChar (n % 10) :: acc)

/-- Decimal rendering of a natural number, as Python `str(n)`. -/
def natToChars (n : Nat) : List Char :=
  if n = 0 then ['0'] else natDigitsGo n n []

/-! ## Date parsing: `datetime.strptime(activity_date[:10], "%Y-%m-%d")`
(line 106) followed by `strftime("%Y%m%d")` (line 107).

CPython strptime compiles the format to the anchored regex
`(\d\d\d\d)-(1[0-2]|0[1-9]|[1-9])-(3[01]|[12]\d|0[1-9]|[1-9])`, match
must consume the whole string, and the resulting (y, m, d) must be a
real calendar date (`datetime(y, m, d)` raises otherwise, including
year 0).  Because a two-digit month forces the following character to
be a digit while a one-digit month forces it to be the dash, the regex
backtracking never changes the outcome and the parser below is
deterministic. -/

/-- Is `c` an ASCII decimal digit? -/
def isDig (c : Char) : Bool := '0' ≤ c && c ≤ '9'

/-- Numeric value of an ASCII digit. -/
def digVal (c : Char) : Nat := c.toNat - 48

/-- Month token of `%m`: `1[0-2]|0[1-9]|[1-9]`, i.e. a two-digit string
of value 1..12, else a single digit 1..9. -/
def monthTok : List Char → Option (Nat × List Char)
  | c1 :: c2 :: rest =>
    if isDig c1 && isDig c2 then
      let v := 10 * digVal c1 + digVal c2
      if 1 ≤ v && v ≤ 12 then some (v, rest) else none
    else if isDig c1 && 1 ≤ digVal c1 then some (digVal c1, c2 :: rest)
    else none
  | [c1] => if isDig c1 && 1 ≤ digVal c1 then some (digVal c1, []) else none
  | [] => none

/-- Day token of `%d`: `3[01]|[12]\d|0[1-9]|[1-9]`, i.e. a two-digit
string of value 1..31, else a single digit 1..9. -/
def dayTok : List Char → Option (Nat × List Char)
  | c1 :: c2 :: rest =>
    if isDig c1 && isDig c2 then
      let v := 10 * digVal c1 + digVal c2
      if 1 ≤ v && v ≤ 31 then some (v, rest)
      else if 1 ≤ digVal c1 then some (digVal c1, c2 :: rest)
      else none
    else if isDig c1 && 1 ≤ digVal c1 then some (digVal c1, c2 :: rest)
    else none
  | [c1] => if isDig c1 && 1 ≤ digVal c1 then some (digVal c1, []) else none
  | [] => none

/-- Gregorian leap year, as `calendar.isleap` / `datetime`. -/
def isLeap (y : Nat) : Bool := y % 4 = 0 && (y % 100 ≠ 0 || y % 400 = 0)

/-- Days in a month, as `datetime` validates them. -/
def daysInMonth (y m : Nat) : Nat :=
  if m = 2 then (if isLeap y then 29 else 28)
  else if m = 4 || m = 6 || m = 9 || m = 11 then 30
  else 31

/-- Python `datetime.strptime(s, "%Y-%m-%d")`: four digit year, dash, month
token, dash, day token, nothing left over, and the triple must be a
valid `datetime` date (year at least `MINYEAR = 1`). -/
def parseYMD (s : List Char) : Option (Nat × Nat × Nat) :=
  match s with
  | y1 :: y2 :: y3 :: y4 :: '-' :: rest =>
    if isDig y1 && isDig y2 && isDig y3 && isDig y4 then
      let y := 1000 * digVal y1 + 100 * digVal y2 + 10 * digVal y3 + digVal y4
      match monthTok rest with
      | some (m, '-' :: r2) =>
        match dayTok r2 with
        | some (d, []) =>
          if 1 ≤ y && d ≤ daysInMonth y m then some (y, m, d) else none
        | _ => none
      | _ => none
    else none
  | _ => none

/-- Left zero-padding to two characters (`strftime` `%m`, `%d`). -/
def pad2 (n : Nat) : List Char :=
  if n < 10 then '0' :: natToChars n else natToChars n

/-- Left zero-padding to four characters (`strftime` `%Y`). -/
def pad4 (n : Nat) : List Char :=
  if n < 10 then '0' :: '0' :: '0' :: natToChars n
  else if n < 100 then '0' :: '0' :: natToChars n
  else if n < 1000 then '0' :: natToChars n
  else natToChars n

/-- The `unknown_date` sentinel (line 109). -/
def unknownDateChars : List Char :=
  ['u', 'n', 'k', 'n', 'o', 'w', 'n', '_', 'd', 'a', 't', 'e']

/-- The default `"Unknown"` for a missing `startTimeLocal` (line 96). -/
def unknownChars : List Char := ['U', 'n', 'k', 'n', 'o', 'w', 'n']

/-- The default `"Unnamed"` for a missing `activityName` (line 95). -/
def unnamedChars : List Char := ['U', 'n', 'n', 'a', 'm', 'e', 'd']

/-- The date half of the filename (lines 104-109): parse the first ten
characters of the start-time string as `%Y-%m-%d`; on success render
`%Y%m%d`, on any failure fall back to the sentinel. -/
def dateStrOf (a : Activity) : List Char :=
  match parseYMD ((a.startTimeLocal.getD unknownChars).take 10) with
  | some (y, m, d) => pad4 y ++ pad2 m ++ pad2 d
  | none => unknownDateChars

/-! ## Name sanitization (lines 101-102) -/

/-- The character filter of line 101:
`c.isalnum() or c in (' ', '-', '_')`. -/
def keepChar (c : Char) : Bool := c.isAlphanum || c = ' ' || c = '-' || c = '_'

/-- Python `str.strip()`: drop whitespace from both ends. -/
def pyStrip (s : List Char) : List Char :=
  ((s.dropWhile Char.isWhitespace).reverse.dropWhile Char.isWhitespace).reverse

/-- The `safe_name` computation (lines 101-102): keep only alphanumerics, space, hyphen
and underscore, strip, then replace the remaining spaces with
underscores. -/
def sanitizeName (name : List Char) : List Char :=
  (pyStrip (name.filter keepChar)).map (fun c => if c = ' ' then '_' else c)

/-- The filename of line 111:
`f"{date_str}_{activity_id}_{safe_name}.{file_format}"`. -/
def mkFilename (a : Activity) (fmt : FileFormat) : List Char :=
  dateStrOf a ++ '_' :: natToChars a.activityId ++ '_' ::
    sanitizeName (a.activityName.getD unnamedChars) ++ '.' :: fmt.ext

/-- POSIX model of `os.path.join(output_dir, filename)` (line 112); the
second component never starts with a separator here. -/
def osPathJoin (dir name : List Char) : List Char :=
  if dir = [] then name
  else if dir.getLast? = some '/' then dir ++ name
  else dir ++ '/' :: name

/-- The full target path of one activity. -/
def pathOf (odir : List Char) (fmt : FileFormat) (a : Activity) : List Char :=
  osPathJoin odir (mkFilename a fmt)

/-! ## Device-native (fit) resolution: the ZIP unwrap (lines 128-146)

The `zipfile` stdlib is an external collaborator.  An archive parser is
modelled as `parseZip : List Nat -> Option (List (List Char x List Nat))`:
`none` when `zipfile.ZipFile` raises (a per-activity error in the
source, line 157), otherwise the entries in central-directory order,
each with its name and decompressed content.  `zip_ref.namelist()` is
the list of names in that order; `zip_ref.read(name)` goes through
CPython `NameToInfo[name]`, which maps each name to the LAST entry
carrying it, modelled by `zipRead`. -/

/-- Does the lowercased name end in `.fit` (line 138:
`f.lower().endswith(".fit")` with a single-quoted literal in the source)?  ASCII lowering. -/
def fitSuffix (n : List Char) : Bool :=
  ['.', 'f', 'i', 't'].isSuffixOf (n.map Char.toLower)

/-- Model of `zip_ref.read(name)`: content of the last entry with that name
(CPython `NameToInfo`); `none` is the `KeyError` case. -/
def zipRead (entries : List (List Char × List Nat)) (n : List Char) :
    Option (List Nat) :=
  (entries.reverse.find? (fun e => e.1 = n)).map (fun e => e.2)

/-- Lines 128-146: if the payload starts with the two signature bytes
`PK` (0x50 0x4B), open it as a ZIP, filter `namelist()` for names
ending in `.fit` and read the first such name; with no match fall back
to the raw payload and warn; a non-ZIP payload passes through.  The
returned flag records whether the no-FIT-in-archive warning was
printed (line 142); `.error` is a raised exception, caught per
activity (line 157). -/
def resolveFit (parseZip : List Nat → Option (List (List Char × List Nat)))
    (zipData : List Nat) : Except Unit (List Nat × Bool) :=
  if zipData.take 2 = [80, 75] then
    match parseZip zipData with
    | none => .error ()
    | some entries =>
      match ((entries.map Prod.fst).filter fitSuffix).head? with
      | none => .ok (zipData, true)
      | some n =>
        match zipRead entries n with
        | some content => .ok (content, false)
        | none => .error ()
  else .ok (zipData, false)

/-- The format dispatch of lines 124-148: which wire token is fetched,
and whether the ZIP unwrap runs, per requested format.  The download
oracle `dl` models `client.download_activity`; an `.error` is any
raised exception. -/
def resolveBytes (dl : Activity → DlToken → Except Unit (List Nat))
    (parseZip : List Nat → Option (List (List Char × List Nat)))
    (fmt : FileFormat) (a : Activity) : Except Unit (List Nat × Bool) :=
  match fmt with
  | .gpx =>
    match dl a .GPX with
    | .ok d => .ok (d, false)
    | .error e => .error e
  | .tcx =>
    match dl a .TCX with
    | .ok d => .ok (d, false)
    | .error e => .error e
  | .fit =>
    match dl a .ORIGINAL with
    | .ok z => resolveFit parseZip z
    | .error e => .error e
  | .original =>
    match dl a .ORIGINAL with
    | .ok d => .ok (d, false)
    | .error e => .error e

/-! ## The per-activity loop (lines 89-159) -/

/-- The running tallies of lines 89-91 plus the filesystem, modelled as
a list of (path, content) entries; `os.path.exists` only inspects the
paths. -/
structure BatchState where
  fs : List (List Char × List Nat)
  downloaded : Nat
  skipped : Nat
  errors : Nat
deriving DecidableEq

/-- The check `os.path.exists(filepath)` (line 115). -/
def hasPath (fs : List (List Char × List Nat)) (p : List Char) : Bool :=
  fs.any (fun e => e.1 = p)

/-- Content at a path, if any. -/
def lookupPath (fs : List (List Char × List Nat)) (p : List Char) :
    Option (List Nat) :=
  (fs.find? (fun e => e.1 = p)).map (fun e => e.2)

/-- One iteration of the loop (lines 93-159): skip when the target path
exists; otherwise resolve the bytes, then write them.  The write-fault
oracle `wf` models an exception raised by the `open`/`write` block of
lines 151-152: `some k` means the call failed after `k` bytes reached
the file, which `open(path, "wb")` had already created/truncated, so
the truncated prefix stays on disk while the exception is counted as a
per-activity error (lines 157-159). -/
def processOne (dl : Activity → DlToken → Except Unit (List Nat))
    (parseZip : List Nat → Option (List (List Char × List Nat)))
    (wf : Activity → Option Nat) (odir : List Char) (fmt : FileFormat)
    (st : BatchState) (a : Activity) : BatchState :=
  let fp := pathOf odir fmt a
  if hasPath st.fs fp then
    { st with skipped := st.skipped + 1 }
  else
    match resolveBytes dl parseZip fmt a with
    | .error _ => { st with errors := st.errors + 1 }
    | .ok (data, _warned) =>
      match wf a with
      | none =>
        { st with fs := (fp, data) :: st.fs, downloaded := st.downloaded + 1 }
      | some k =>
        { st with fs := (fp, data.take k) :: st.fs, errors := st.errors + 1 }

/-- The whole loop over a list of activities. -/
def runFrom (dl : Activity → DlToken → Except Unit (List Nat))
    (parseZip : List Nat → Option (List (List Char × List Nat)))
    (wf : Activity → Option Nat) (odir : List Char) (fmt : FileFormat) :
    List Activity → BatchState → BatchState
  | [], st => st
  | a :: rest, st =>
    runFrom dl parseZip wf odir fmt rest (processOne dl parseZip wf odir fmt st a)

/-! ## Limit truncation (lines 84-87) -/

/-- Python `activities[:limit]` for an `int` bound, including the
negative case (count from the end). -/
def pySliceTo (l : Int) (xs : List Activity) : List Activity :=
  if 0 ≤ l then xs.take l.toNat else xs.take (xs.length - (-l).toNat)

/-- Lines 84-86: `if limit and limit < len(activities):
activities = activities[:limit]`.  `limit` is `None` or an `int`;
`0` is falsy. -/
def applyLimit (limit : Option Int) (xs : List Activity) : List Activity :=
  match limit with
  | none => xs
  | some l => if l ≠ 0 ∧ l < (xs.length : Int) then pySliceTo l xs else xs

/-- The summary of lines 161-166 reports `len(activities)` after the
truncation as the total. -/
structure BatchRun where
  state : BatchState
  total : Nat
deriving DecidableEq

/-- The batch of lines 84-166: truncate, then iterate from zeroed
counters over the given starting filesystem; the reported total is the
length of the truncated list. -/
def runBatch (dl : Activity → DlToken → Except Unit (List Nat))
    (parseZip : List Nat → Option (List (List Char × List Nat)))
    (wf : Activity → Option Nat) (odir : List Char) (fmt : FileFormat)
    (limit : Option Int) (acts : List Activity)
    (fs0 : List (List Char × List Nat)) : BatchRun :=
  let l := applyLimit limit acts
  { state := runFrom dl parseZip wf odir fmt l ⟨fs0, 0, 0, 0⟩
    total := l.length }

/-! ## Character classes and concrete oracles used by instances -/

/-- Characters legal in a complete filename: alphanumerics, hyphen,
underscore, and the extension dot. -/
def allowedChar (c : Char) : Bool :=
  c.isAlphanum || c = '-' || c = '_' || c = '.'

/-- Characters legal in the sanitized name part. -/
def sanChar (c : Char) : Bool := c.isAlphanum || c = '-' || c = '_'

/-- A download oracle that always succeeds with the bytes `[1, 2, 3]`. -/
def exDlOk : Activity → DlToken → Except Unit (List Nat) :=
  fun _ _ => .ok [1, 2, 3]

/-- A download oracle that faults exactly on activity id 2. -/
def exDl : Activity → DlToken → Except Unit (List Nat) :=
  fun a _ => if a.activityId = 2 then .error () else .ok [7]

/-- A write-fault oracle failing after the first byte. -/
def exWf1 : Activity → Option Nat := fun _ => some 1

/-- An archive holding two entries that both carry the name `a.fit`,
with different contents. -/
def dupEntries : List (List Char × List Nat) :=
  [(['a', '.', 'f', 'i', 't'], [1]), (['a', '.', 'f', 'i', 't'], [2])]

/-- A parser recognising exactly the payload `[80, 75, 2]` as
`dupEntries`. -/
def dupPz : List Nat → Option (List (List Char × List Nat)) :=
  fun b => if b = [80, 75, 2] then some dupEntries else none

/-! ## Helper lemmas -/

/-- Filtering the names is filtering the entries and then projecting. -/
theorem map_fst_filter (p : List Char → Bool)
    (l : List (List Char × List Nat)) :
    (l.map Prod.fst).filter p = (l.filter (fun e => p e.1)).map Prod.fst := by
  induction l with
  | nil => rfl
  | cons x xs ih =>
    by_cases h : p x.1 = true
    · simp [List.filter_cons, h, ih]
    · simp [List.filter_cons, h, ih]

/-- With pairwise distinct entry names, looking a member up from the
reversed list (the last occurrence of its name) finds the member
itself. -/
theorem reverse_find?_key_unique {l : List (List Char × List Nat)}
    {e : List Char × List Nat} (hmem : e ∈ l)
    (hnd : (l.map Prod.fst).Nodup) :
    l.reverse.find? (fun x => x.1 = e.1) = some e := by
  induction l with
  | nil => cases hmem
  | cons x xs ih =>
    rw [List.map_cons, List.nodup_cons] at hnd
    rw [List.reverse_cons, List.find?_append]
    rcases List.mem_cons.mp hmem with h | h
    · subst h
      have hnone : xs.reverse.find? (fun y => y.1 = e.1) = none := by
        rw [List.find?_eq_none]
        intro y hy
        simp only [decide_eq_true_eq]
        intro hEq
        exact hnd.1 (List.mem_map.mpr ⟨y, List.mem_reverse.mp hy, hEq⟩)
      rw [hnone]
      simp [List.find?_cons_of_pos]
    · rw [ih h hnd.2]
      rfl

/-- Reduction of `resolveFit` once the signature matches and the
archive opens. -/
theorem resolveFit_of_entries
    (pz : List Nat → Option (List (List Char × List Nat)))
    (p : List Nat) (entries : List (List Char × List Nat))
    (h1 : p.take 2 = [80, 75]) (h2 : pz p = some entries) :
    resolveFit pz p =
      (match ((entries.map Prod.fst).filter fitSuffix).head? with
       | none => .ok (p, true)
       | some n =>
         match zipRead entries n with
         | some content => .ok (content, false)
         | none => .error ()) := by
  unfold resolveFit
  rw [if_pos h1, h2]

/-! ## Claim theorems for the format resolver -/

/-- Claim C4: a payload whose first two bytes are not `PK` passes through
unchanged (and without the warning).  The archive parser is universally
quantified and never consulted: no archive open is attempted. -/
theorem c4_non_zip_passthrough
    (pz : List Nat → Option (List (List Char × List Nat)))
    (p : List Nat) (h : p.take 2 ≠ [80, 75]) :
    resolveFit pz p = .ok (p, false) := by
  unfold resolveFit
  rw [if_neg h]

/-- Witness for C4 at the concrete payload `[1, 2, 3]`. -/
theorem c4_witness :
    resolveFit (fun _ => none) [1, 2, 3] = .ok ([1, 2, 3], false) :=
  c4_non_zip_passthrough (fun _ => none) [1, 2, 3] (by decide)

/-- Claim C3: a readable `PK`-signed archive with no `.fit` entry
resolves to the original archive bytes with the warning flag set, and
downstream the activity is still counted as downloaded (the warning is
not an error). -/
theorem c3_fallback (pz : List Nat → Option (List (List Char × List Nat)))
    (p : List Nat) (entries : List (List Char × List Nat))
    (dl : Activity → DlToken → Except Unit (List Nat))
    (wf : Activity → Option Nat) (odir : List Char) (st : BatchState)
    (a : Activity)
    (h1 : p.take 2 = [80, 75]) (h2 : pz p = some entries)
    (h3 : entries.filter (fun e => fitSuffix e.1) = []) :
    resolveFit pz p = .ok (p, true) ∧
    (dl a .ORIGINAL = .ok p → wf a = none →
      hasPath st.fs (pathOf odir .fit a) = false →
      processOne dl pz wf odir .fit st a =
        { st with fs := (pathOf odir .fit a, p) :: st.fs,
                  downloaded := st.downloaded + 1 }) := by
  have hres : resolveFit pz p = .ok (p, true) := by
    rw [resolveFit_of_entries pz p entries h1 h2, map_fst_filter, h3]
    rfl
  refine ⟨hres, fun hdl hwf hp => ?_⟩
  have hrb : resolveBytes dl pz .fit a = .ok (p, true) := by
    unfold resolveBytes
    rw [hdl]
    exact hres
  simp [processOne, hrb, hp, hwf]

/-- Witness for C3: a one-entry archive whose entry is `readme.txt`. -/
theorem c3_witness :
    resolveFit
      (fun b => if b = [80, 75, 3] then
        some [(['r', 'e', 'a', 'd', 'm', 'e', '.', 't', 'x', 't'], [9])]
        else none)
      [80, 75, 3] = .ok ([80, 75, 3], true) :=
  (c3_fallback _ [80, 75, 3]
    [(['r', 'e', 'a', 'd', 'm', 'e', '.', 't', 'x', 't'], [9])]
    (fun _ _ => .error ()) (fun _ => none) [] ⟨[], 0, 0, 0⟩
    ⟨0, none, none, none⟩
    (by decide) (by decide) (by decide)).1

/-- Claim C2 (amended): on a `PK`-signed readable archive whose entry
names are pairwise distinct (in particular a single `activity.fit`
entry), fit resolution returns the decompressed content of the first
entry whose lowercased name ends in `.fit`, without the warning. -/
theorem c2_fit_unwrap (pz : List Nat → Option (List (List Char × List Nat)))
    (p : List Nat) (entries : List (List Char × List Nat))
    (e : List Char × List Nat)
    (h1 : p.take 2 = [80, 75]) (h2 : pz p = some entries)
    (hnd : (entries.map Prod.fst).Nodup)
    (h4 : (entries.filter (fun x => fitSuffix x.1)).head? = some e) :
    resolveFit pz p = .ok (e.2, false) := by
  rw [resolveFit_of_entries pz p entries h1 h2, map_fst_filter]
  cases hfl : entries.filter (fun x => fitSuffix x.1) with
  | nil => rw [hfl] at h4; cases h4
  | cons f tl =>
    rw [hfl] at h4
    have hfe : f = e := by simpa using h4
    subst hfe
    have hmem : f ∈ entries := List.mem_of_mem_filter (hfl ▸ List.mem_cons_self f tl)
    have hzr : zipRead entries f.1 = some f.2 := by
      unfold zipRead
      rw [reverse_find?_key_unique hmem hnd]
      rfl
    simp only [List.map_cons, List.head?_cons, hzr]

/-- Witness for C2 (amended): a single-entry archive `activity.fit`. -/
theorem c2_witness :
    resolveFit
      (fun b => if b = [80, 75, 9] then
        some [(['a', 'c', 't', 'i', 'v', 'i', 't', 'y', '.', 'f', 'i', 't'],
               [5, 6])]
        else none)
      [80, 75, 9] = .ok ([5, 6], false) :=
  c2_fit_unwrap _ [80, 75, 9]
    [(['a', 'c', 't', 'i', 'v', 'i', 't', 'y', '.', 'f', 'i', 't'], [5, 6])]
    (['a', 'c', 't', 'i', 'v', 'i', 't', 'y', '.', 'f', 'i', 't'], [5, 6])
    (by decide) (by decide) (by decide) (by decide)

/-! ## Idempotence of a re-run -/

/-- A filesystem entry consed on keeps every present path present. -/
theorem hasPath_cons_of (e : List Char × List Nat)
    (fs : List (List Char × List Nat)) (p : List Char)
    (h : hasPath fs p = true) : hasPath (e :: fs) p = true := by
  unfold hasPath at h ⊢
  rw [List.any_cons, h, Bool.or_true]

/-- One loop iteration never removes a file: paths only accumulate. -/
theorem processOne_hasPath_mono
    (dl : Activity → DlToken → Except Unit (List Nat))
    (pz : List Nat → Option (List (List Char × List Nat)))
    (wf : Activity → Option Nat) (odir : List Char) (fmt : FileFormat)
    (st : BatchState) (a : Activity) (p : List Char)
    (h : hasPath st.fs p = true) :
    hasPath (processOne dl pz wf odir fmt st a).fs p = true := by
  cases hp : hasPath st.fs (pathOf odir fmt a) with
  | true =>
    simp only [processOne, hp, if_true]
    exact h
  | false =>
    cases hres : resolveBytes dl pz fmt a with
    | error e =>
      simp only [processOne, hp, hres, Bool.false_eq_true, if_false]
      exact h
    | ok v =>
      obtain ⟨data, w⟩ := v
      cases hwf : wf a with
      | none =>
        simp only [processOne, hp, hres, hwf, Bool.false_eq_true, if_false]
        exact hasPath_cons_of _ _ _ h
      | some k =>
        simp only [processOne, hp, hres, hwf, Bool.false_eq_true, if_false]
        exact hasPath_cons_of _ _ _ h

/-- The whole loop never removes a file. -/
theorem runFrom_hasPath_mono
    (dl : Activity → DlToken → Except Unit (List Nat))
    (pz : List Nat → Option (List (List Char × List Nat)))
    (wf : Activity → Option Nat) (odir : List Char) (fmt : FileFormat)
    (acts : List Activity) : ∀ (st : BatchState) (p : List Char),
    hasPath st.fs p = true →
    hasPath (runFrom dl pz wf odir fmt acts st).fs p = true := by
  induction acts with
  | nil => intro st p h; exact h
  | cons a rest ih =>
    intro st p h
    exact ih _ p (processOne_hasPath_mono dl pz wf odir fmt st a p h)

/-- After a run in which every resolution succeeds, the target path of
every processed activity exists (a skipped path existed before and is
kept; a resolved one is written — even a faulted write leaves the
truncated file at the path). -/
theorem runFrom_covers
    (dl : Activity → DlToken → Except Unit (List Nat))
    (pz : List Nat → Option (List (List Char × List Nat)))
    (wf : Activity → Option Nat) (odir : List Char) (fmt : FileFormat)
    (acts : List Activity) : ∀ (st : BatchState),
    (∀ a ∈ acts, ∃ v, resolveBytes dl pz fmt a = .ok v) →
    ∀ a ∈ acts,
      hasPath (runFrom dl pz wf odir fmt acts st).fs (pathOf odir fmt a) = true := by
  induction acts with
  | nil => intro st _ a ha; cases ha
  | cons x rest ih =>
    intro st hok a ha
    rcases List.mem_cons.mp ha with rfl | ha'
    · refine runFrom_hasPath_mono dl pz wf odir fmt rest _ _ ?_
      cases hp : hasPath st.fs (pathOf odir fmt a) with
      | true =>
        simp only [processOne, hp, if_true]
      | false =>
        obtain ⟨⟨data, w⟩, hres⟩ := hok a (List.mem_cons_self a rest)
        cases hwf : wf a with
        | none =>
          simp only [processOne, hp, hres, hwf, Bool.false_eq_true, if_false]
          simp [hasPath, List.any_cons]
        | some k =>
          simp only [processOne, hp, hres, hwf, Bool.false_eq_true, if_false]
          simp [hasPath, List.any_cons]
    · exact ih _ (fun b hb => hok b (List.mem_cons_of_mem x hb)) a ha'

/-- When the target path of every listed activity already exists, the
loop only skips: every activity adds one to `skipped` and nothing else
changes. -/
theorem runFrom_all_present
    (dl : Activity → DlToken → Except Unit (List Nat))
    (pz : List Nat → Option (List (List Char × List Nat)))
    (wf : Activity → Option Nat) (odir : List Char) (fmt : FileFormat)
    (acts : List Activity) : ∀ (st : BatchState),
    (∀ a ∈ acts, hasPath st.fs (pathOf odir fmt a) = true) →
    runFrom dl pz wf odir fmt acts st =
      { st with skipped := st.skipped + acts.length } := by
  induction acts with
  | nil => intro st _; rfl
  | cons x rest ih =>
    intro st h
    have hx := h x (List.mem_cons_self x rest)
    show runFrom dl pz wf odir fmt rest (processOne dl pz wf odir fmt st x) = _
    have hskip : processOne dl pz wf odir fmt st x =
        { st with skipped := st.skipped + 1 } := by
      simp only [processOne, hx, if_true]
    rw [hskip, ih { st with skipped := st.skipped + 1 }
      (fun b hb => h b (List.mem_cons_of_mem x hb))]
    have : st.skipped + 1 + rest.length = st.skipped + (rest.length + 1) := by
      omega
    rw [this]
    rfl

/-- Claim C1: with unchanged remote data (the same deterministic oracles,
every resolution succeeding), running the batch a second time against
the filesystem the first run left behind reports `downloaded = 0` and
`skipped = total`: the filename of each (activity, format) pair is a
pure function, so the file written (or found) by the first run is seen
by the existence check of the second and every activity is skipped. -/
theorem c1_idempotent
    (dl : Activity → DlToken → Except Unit (List Nat))
    (pz : List Nat → Option (List (List Char × List Nat)))
    (wf1 wf2 : Activity → Option Nat) (odir : List Char) (fmt : FileFormat)
    (limit : Option Int) (acts : List Activity)
    (fs0 : List (List Char × List Nat))
    (hok : ∀ a ∈ applyLimit limit acts,
      ∃ v, resolveBytes dl pz fmt a = .ok v) :
    (runBatch dl pz wf2 odir fmt limit acts
      (runBatch dl pz wf1 odir fmt limit acts fs0).state.fs).state.downloaded
      = 0 ∧
    (runBatch dl pz wf2 odir fmt limit acts
      (runBatch dl pz wf1 odir fmt limit acts fs0).state.fs).state.skipped =
    (runBatch dl pz wf2 odir fmt limit acts
      (runBatch dl pz wf1 odir fmt limit acts fs0).state.fs).total := by
  have hcov : ∀ a ∈ applyLimit limit acts,
      hasPath (runBatch dl pz wf1 odir fmt limit acts fs0).state.fs
        (pathOf odir fmt a) = true :=
    runFrom_covers dl pz wf1 odir fmt (applyLimit limit acts) ⟨fs0, 0, 0, 0⟩ hok
  have hall := runFrom_all_present dl pz wf2 odir fmt (applyLimit limit acts)
    ⟨(runBatch dl pz wf1 odir fmt limit acts fs0).state.fs, 0, 0, 0⟩ hcov
  constructor
  · show (runFrom dl pz wf2 odir fmt (applyLimit limit acts)
      ⟨(runBatch dl pz wf1 odir fmt limit acts fs0).state.fs, 0, 0, 0⟩).downloaded = 0
    rw [hall]
  · show (runFrom dl pz wf2 odir fmt (applyLimit limit acts)
      ⟨(runBatch dl pz wf1 odir fmt limit acts fs0).state.fs, 0, 0, 0⟩).skipped =
      (applyLimit limit acts).length
    rw [hall]
    show 0 + (applyLimit limit acts).length = (applyLimit limit acts).length
    omega

/-- Witness for C1 at one concrete activity: the second run downloads
nothing and skips its whole (one-element) listing. -/
theorem c1_witness :
    (runBatch exDlOk (fun _ => none) (fun _ => none) [] .gpx none
      [⟨7, none, none, none⟩]
      (runBatch exDlOk (fun _ => none) (fun _ => none) [] .gpx none
        [⟨7, none, none, none⟩] []).state.fs).state.downloaded = 0 ∧
    (runBatch exDlOk (fun _ => none) (fun _ => none) [] .gpx none
      [⟨7, none, none, none⟩]
      (runBatch exDlOk (fun _ => none) (fun _ => none) [] .gpx none
        [⟨7, none, none, none⟩] []).state.fs).state.skipped =
    (runBatch exDlOk (fun _ => none) (fun _ => none) [] .gpx none
      [⟨7, none, none, none⟩]
      (runBatch exDlOk (fun _ => none) (fun _ => none) [] .gpx none
        [⟨7, none, none, none⟩] []).state.fs).total :=
  c1_idempotent exDlOk (fun _ => none) (fun _ => none) (fun _ => none) []
    .gpx none [⟨7, none, none, none⟩] []
    (fun _ _ => ⟨([1, 2, 3], false), rfl⟩)

/-! ## Claim theorems for the limit -/

/-- Claim C5: a positive limit strictly below the listed count truncates
to the first `l` activities before iteration begins, and the reported
total is `l`. -/
theorem c5_limit_truncation (acts : List Activity) (l : Nat)
    (dl : Activity → DlToken → Except Unit (List Nat))
    (pz : List Nat → Option (List (List Char × List Nat)))
    (wf : Activity → Option Nat) (odir : List Char) (fmt : FileFormat)
    (fs0 : List (List Char × List Nat))
    (h0 : 0 < l) (hlt : l < acts.length) :
    applyLimit (some (l : Int)) acts = acts.take l ∧
    (runBatch dl pz wf odir fmt (some (l : Int)) acts fs0).total = l ∧
    (runBatch dl pz wf odir fmt (some (l : Int)) acts fs0).state =
      runFrom dl pz wf odir fmt (acts.take l) ⟨fs0, 0, 0, 0⟩ := by
  have hAL : applyLimit (some (l : Int)) acts = acts.take l := by
    show (if (l : Int) ≠ 0 ∧ (l : Int) < (acts.length : Int) then
      pySliceTo (l : Int) acts else acts) = acts.take l
    rw [if_pos ⟨by exact_mod_cast Nat.pos_iff_ne_zero.mp h0,
      by exact_mod_cast hlt⟩]
    unfold pySliceTo
    rw [if_pos (Int.natCast_nonneg l), Int.toNat_natCast]
  refine ⟨hAL, ?_, ?_⟩
  · show (applyLimit (some (l : Int)) acts).length = l
    rw [hAL, List.length_take]
    omega
  · show runFrom dl pz wf odir fmt (applyLimit (some (l : Int)) acts) _ = _
    rw [hAL]

/-- Witness for C5: ten identical activities, limit three. -/
theorem c5_witness :
    (runBatch (fun _ _ => .ok [7]) (fun _ => none) (fun _ => none) []
      .gpx (some (3 : Int)) (List.replicate 10 ⟨1, none, none, none⟩) []).total
      = 3 :=
  (c5_limit_truncation (List.replicate 10 ⟨1, none, none, none⟩) 3
    (fun _ _ => .ok [7]) (fun _ => none) (fun _ => none) [] .gpx []
    (by decide) (by decide)).2.1

/-- Claim C10: a limit of `0` (or `None`) is falsy, so no truncation
happens and every listed activity is iterated; truncation fires only
for a truthy limit strictly below the listed count. -/
theorem c10_zero_limit (acts : List Activity)
    (dl : Activity → DlToken → Except Unit (List Nat))
    (pz : List Nat → Option (List (List Char × List Nat)))
    (wf : Activity → Option Nat) (odir : List Char) (fmt : FileFormat)
    (fs0 : List (List Char × List Nat)) :
    applyLimit (some 0) acts = acts ∧
    applyLimit none acts = acts ∧
    runBatch dl pz wf odir fmt (some 0) acts fs0 =
      runBatch dl pz wf odir fmt none acts fs0 ∧
    (runBatch dl pz wf odir fmt (some 0) acts fs0).total = acts.length ∧
    (∀ l : Int, applyLimit (some l) acts ≠ acts →
      l ≠ 0 ∧ l < (acts.length : Int)) := by
  have h0 : applyLimit (some 0) acts = acts := by
    show (if (0 : Int) ≠ 0 ∧ (0 : Int) < (acts.length : Int) then
      pySliceTo 0 acts else acts) = acts
    rw [if_neg]
    intro h
    exact h.1 rfl
  refine ⟨h0, rfl, ?_, ?_, ?_⟩
  · unfold runBatch
    rw [h0]
    rfl
  · show (applyLimit (some 0) acts).length = acts.length
    rw [h0]
  · intro l h
    have h' : (if l ≠ 0 ∧ l < (acts.length : Int) then
      pySliceTo l acts else acts) ≠ acts := h
    by_cases hc : l ≠ 0 ∧ l < (acts.length : Int)
    · exact hc
    · rw [if_neg hc] at h'
      exact absurd rfl h'

/-- Witness for C10: on a two-activity listing, `limit = 1` truncates,
and the theorem forces `1 = 0` to be false and `1 < 2`. -/
theorem c10_witness :
    (1 : Int) ≠ 0 ∧ (1 : Int) < ((2 : Nat) : Int) := by
  have h := (c10_zero_limit
    [⟨1, none, none, none⟩, ⟨2, none, none, none⟩]
    (fun _ _ => .ok [7]) (fun _ => none) (fun _ => none) [] .gpx
    []).2.2.2.2 1 (by decide)
  exact_mod_cast h

/-! ## Claim theorems for the per-activity loop -/

/-- Claim C6: a per-activity failure, whether raised during resolution or
during the write, bumps the error counter by exactly one and the loop
then continues with the remaining activities from that state: no
cascade, no retry. -/
theorem c6_failure_isolation
    (dl : Activity → DlToken → Except Unit (List Nat))
    (pz : List Nat → Option (List (List Char × List Nat)))
    (wf : Activity → Option Nat) (odir : List Char) (fmt : FileFormat)
    (st : BatchState) (a : Activity) (rest : List Activity)
    (hp : hasPath st.fs (pathOf odir fmt a) = false) :
    (resolveBytes dl pz fmt a = .error () →
      runFrom dl pz wf odir fmt (a :: rest) st =
        runFrom dl pz wf odir fmt rest { st with errors := st.errors + 1 }) ∧
    (∀ data w k, resolveBytes dl pz fmt a = .ok (data, w) → wf a = some k →
      runFrom dl pz wf odir fmt (a :: rest) st =
        runFrom dl pz wf odir fmt rest
          { st with fs := (pathOf odir fmt a, data.take k) :: st.fs,
                    errors := st.errors + 1 }) := by
  constructor
  · intro hres
    show runFrom dl pz wf odir fmt rest (processOne dl pz wf odir fmt st a) = _
    congr 1
    simp [processOne, hp, hres]
  · intro data w k hres hwf
    show runFrom dl pz wf odir fmt rest (processOne dl pz wf odir fmt st a) = _
    congr 1
    simp [processOne, hp, hres, hwf]

/-- Witness for C6, realising the three-activity scenario of the
claim: after the first activity succeeded, the failing second activity
only bumps the error counter and the loop proceeds to the third; the
whole run then tallies `downloaded = 2, skipped = 0, errors = 1`. -/
theorem c6_witness :
    runFrom exDl (fun _ => none) (fun _ => none) [] .gpx
      [⟨2, none, none, none⟩, ⟨3, none, none, none⟩]
      (processOne exDl (fun _ => none) (fun _ => none) [] .gpx
        ⟨[], 0, 0, 0⟩ ⟨1, none, none, none⟩) =
    runFrom exDl (fun _ => none) (fun _ => none) [] .gpx
      [⟨3, none, none, none⟩]
      { (processOne exDl (fun _ => none) (fun _ => none) [] .gpx
          ⟨[], 0, 0, 0⟩ ⟨1, none, none, none⟩) with
        errors := (processOne exDl (fun _ => none) (fun _ => none) [] .gpx
          ⟨[], 0, 0, 0⟩ ⟨1, none, none, none⟩).errors + 1 } ∧
    (runFrom exDl (fun _ => none) (fun _ => none) [] .gpx
      [⟨1, none, none, none⟩, ⟨2, none, none, none⟩, ⟨3, none, none, none⟩]
      ⟨[], 0, 0, 0⟩).downloaded = 2 ∧
    (runFrom exDl (fun _ => none) (fun _ => none) [] .gpx
      [⟨1, none, none, none⟩, ⟨2, none, none, none⟩, ⟨3, none, none, none⟩]
      ⟨[], 0, 0, 0⟩).skipped = 0 ∧
    (runFrom exDl (fun _ => none) (fun _ => none) [] .gpx
      [⟨1, none, none, none⟩, ⟨2, none, none, none⟩, ⟨3, none, none, none⟩]
      ⟨[], 0, 0, 0⟩).errors = 1 :=
  ⟨(c6_failure_isolation exDl (fun _ => none) (fun _ => none) [] .gpx
      (processOne exDl (fun _ => none) (fun _ => none) [] .gpx
        ⟨[], 0, 0, 0⟩ ⟨1, none, none, none⟩)
      ⟨2, none, none, none⟩ [⟨3, none, none, none⟩]
      (by decide)).1 (by rfl),
   by decide, by decide, by decide⟩

/-! ## Character lemmas for the filename -/

theorem digitChar_isDigit (d : Nat) (h : d < 10) :
    (digitChar d).isDigit = true := by
  interval_cases d <;> decide

theorem natDigitsGo_digits (fuel : Nat) : ∀ (n : Nat) (acc : List Char),
    (∀ c ∈ acc, c.isDigit = true) →
    ∀ c ∈ natDigitsGo fuel n acc, c.isDigit = true := by
  induction fuel with
  | zero => intro n acc hacc c hc; exact hacc c hc
  | succ fuel ih =>
    intro n acc hacc c hc
    unfold natDigitsGo at hc
    by_cases h : n = 0
    · rw [if_pos h] at hc; exact hacc c hc
    · rw [if_neg h] at hc
      refine ih (n / 10) _ ?_ c hc
      intro d hd
      rcases List.mem_cons.mp hd with h1 | h1
      · subst h1; exact digitChar_isDigit (n % 10) (Nat.mod_lt n (by decide))
      · exact hacc d h1

theorem natToChars_digits (n : Nat) : ∀ c ∈ natToChars n, c.isDigit = true := by
  intro c hc
  unfold natToChars at hc
  by_cases h : n = 0
  · rw [if_pos h] at hc
    rcases List.mem_cons.mp hc with h1 | h1
    · subst h1; decide
    · cases h1
  · rw [if_neg h] at hc
    exact natDigitsGo_digits n n [] (fun d hd => absurd hd (List.not_mem_nil d)) c hc

theorem pad2_digits (n : Nat) : ∀ c ∈ pad2 n, c.isDigit = true := by
  intro c hc
  unfold pad2 at hc
  split at hc
  · rcases List.mem_cons.mp hc with h1 | h1
    · subst h1; decide
    · exact natToChars_digits n c h1
  · exact natToChars_digits n c hc

theorem pad4_digits (n : Nat) : ∀ c ∈ pad4 n, c.isDigit = true := by
  intro c hc
  unfold pad4 at hc
  split at hc
  · simp only [List.mem_cons] at hc
    rcases hc with rfl | rfl | rfl | h1
    · decide
    · decide
    · decide
    · exact natToChars_digits n c h1
  · split at hc
    · simp only [List.mem_cons] at hc
      rcases hc with rfl | rfl | h1
      · decide
      · decide
      · exact natToChars_digits n c h1
    · split at hc
      · simp only [List.mem_cons] at hc
        rcases hc with rfl | h1
        · decide
        · exact natToChars_digits n c h1
      · exact natToChars_digits n c hc

theorem allowed_of_digit {c : Char} (h : c.isDigit = true) :
    allowedChar c = true := by
  unfold allowedChar Char.isAlphanum
  rw [h]
  simp

theorem allowed_of_san {c : Char} (h : sanChar c = true) :
    allowedChar c = true := by
  unfold sanChar at h
  unfold allowedChar
  simp only [Bool.or_eq_true] at h ⊢
  tauto

/-- Everything the sentinel is built of is a filename-legal
character. -/
theorem dateStr_allowed (a : Activity) : ∀ c ∈ dateStrOf a, allowedChar c = true := by
  intro c hc
  unfold dateStrOf at hc
  split at hc
  · simp only [List.mem_append] at hc
    rcases hc with (h | h) | h
    · exact allowed_of_digit (pad4_digits _ c h)
    · exact allowed_of_digit (pad2_digits _ c h)
    · exact allowed_of_digit (pad2_digits _ c h)
  · exact List.all_eq_true.mp (by decide) c hc

theorem mem_of_pyStrip {s : List Char} {c : Char} (h : c ∈ pyStrip s) :
    c ∈ s := by
  unfold pyStrip at h
  rw [List.mem_reverse] at h
  have h2 := List.Sublist.mem h (List.dropWhile_sublist _)
  rw [List.mem_reverse] at h2
  exact List.Sublist.mem h2 (List.dropWhile_sublist _)

/-- Every character the sanitizer emits is an alphanumeric, a hyphen
or an underscore. -/
theorem sanChar_of_sanitize {name : List Char} {c : Char}
    (hc : c ∈ sanitizeName name) : sanChar c = true := by
  unfold sanitizeName at hc
  rcases List.mem_map.mp hc with ⟨c', hc', rfl⟩
  have h1 : c' ∈ name.filter keepChar := mem_of_pyStrip hc'
  have h2 : keepChar c' = true := (List.mem_filter.mp h1).2
  unfold keepChar at h2
  simp only [Bool.or_eq_true, decide_eq_true_eq] at h2
  by_cases hsp : c' = ' '
  · rw [if_pos hsp]; decide
  · rw [if_neg hsp]
    unfold sanChar
    simp only [Bool.or_eq_true, decide_eq_true_eq]
    rcases h2 with ((h | h) | h) | h
    · exact Or.inl (Or.inl h)
    · exact absurd h hsp
    · exact Or.inl (Or.inr h)
    · exact Or.inr h

/-! ## Claim theorems for the filename -/

/-- Claim C8: the sanitized name keeps only alphanumerics, hyphen and
underscore (spaces having been stripped or replaced), and the full
filename adds only the decimal id, the date digits or the sentinel,
the separators `_` and the extension dot: no character outside
alphanumerics, `-`, `_` and `.` occurs. -/
theorem c8_sanitization (a : Activity) (fmt : FileFormat) :
    (sanitizeName (a.activityName.getD unnamedChars)).all sanChar = true ∧
    (mkFilename a fmt).all allowedChar = true := by
  constructor
  · rw [List.all_eq_true]
    intro c hc
    exact sanChar_of_sanitize hc
  · rw [List.all_eq_true]
    intro c hc
    unfold mkFilename at hc
    simp only [List.mem_append, List.mem_cons] at hc
    rcases hc with ((h | rfl | h) | rfl | h) | rfl | h
    · exact dateStr_allowed a c h
    · decide
    · exact allowed_of_digit (natToChars_digits _ c h)
    · decide
    · exact allowed_of_san (sanChar_of_sanitize h)
    · decide
    · have hall : (FileFormat.ext fmt).all allowedChar = true := by
        clear h
        cases fmt <;> decide
      exact List.all_eq_true.mp hall c h

/-- Claim C7: when the first ten characters of the start-time string do
not parse as a calendar date, the filename starts with the sentinel
`unknown_date_`, and the activity is not charged an error for it: the
per-item processing of such an activity leaves the error counter
untouched whenever download and write succeed (the date fallback
itself can never raise, being total). -/
theorem c7_malformed_date (a : Activity) (fmt : FileFormat)
    (h : parseYMD ((a.startTimeLocal.getD unknownChars).take 10) = none) :
    (∃ t, mkFilename a fmt = unknownDateChars ++ '_' :: t) ∧
    (∀ (dl : Activity → DlToken → Except Unit (List Nat))
       (pz : List Nat → Option (List (List Char × List Nat)))
       (wf : Activity → Option Nat) (odir : List Char) (st : BatchState),
      (∃ v, resolveBytes dl pz fmt a = .ok v) → wf a = none →
      (processOne dl pz wf odir fmt st a).errors = st.errors) := by
  constructor
  · refine ⟨natToChars a.activityId ++ '_' ::
      sanitizeName (a.activityName.getD unnamedChars) ++ '.' :: fmt.ext, ?_⟩
    unfold mkFilename dateStrOf
    rw [h]
    rfl
  · intro dl pz wf odir st hv hwf
    rcases hv with ⟨⟨data, w⟩, hv⟩
    cases hp : hasPath st.fs (pathOf odir fmt a) with
    | true => simp [processOne, hp]
    | false => simp [processOne, hp, hv, hwf]

/-- Witness for C7: an activity whose start time reads `not-a-date`
gets the sentinel filename and costs no error. -/
theorem c7_witness :
    (∃ t, mkFilename
        ⟨42, some ['R', 'u', 'n'],
         some ['n', 'o', 't', '-', 'a', '-', 'd', 'a', 't', 'e'], none⟩ .gpx =
      unknownDateChars ++ '_' :: t) ∧
    (processOne exDlOk (fun _ => none) (fun _ => none) [] .gpx ⟨[], 0, 0, 0⟩
      ⟨42, some ['R', 'u', 'n'],
       some ['n', 'o', 't', '-', 'a', '-', 'd', 'a', 't', 'e'], none⟩).errors
      = 0 :=
  ⟨(c7_malformed_date _ .gpx (by decide)).1,
   (c7_malformed_date _ .gpx (by decide)).2 exDlOk (fun _ => none)
     (fun _ => none) [] ⟨[], 0, 0, 0⟩ ⟨([1, 2, 3], false), rfl⟩ rfl⟩

/-! ## Claim theorems for the write path -/

/-- Claim C9 (amended): a write that fails partway is surfaced as a
per-activity error and the loop continues, but the code opens the
target with `open(filepath, "wb")` and writes directly — no
write-then-rename — so the truncated prefix of the data remains on
disk at the target path. -/
theorem c9_partial_write
    (dl : Activity → DlToken → Except Unit (List Nat))
    (pz : List Nat → Option (List (List Char × List Nat)))
    (wf : Activity → Option Nat) (odir : List Char) (fmt : FileFormat)
    (st : BatchState) (a : Activity) (rest : List Activity)
    (data : List Nat) (w : Bool) (k : Nat)
    (hp : hasPath st.fs (pathOf odir fmt a) = false)
    (hres : resolveBytes dl pz fmt a = .ok (data, w))
    (hwf : wf a = some k) :
    processOne dl pz wf odir fmt st a =
      { st with fs := (pathOf odir fmt a, data.take k) :: st.fs,
                errors := st.errors + 1 } ∧
    lookupPath (processOne dl pz wf odir fmt st a).fs (pathOf odir fmt a) =
      some (data.take k) ∧
    runFrom dl pz wf odir fmt (a :: rest) st =
      runFrom dl pz wf odir fmt rest (processOne dl pz wf odir fmt st a) := by
  have h1 : processOne dl pz wf odir fmt st a =
      { st with fs := (pathOf odir fmt a, data.take k) :: st.fs,
                errors := st.errors + 1 } := by
    simp [processOne, hp, hres, hwf]
  refine ⟨h1, ?_, rfl⟩
  rw [h1]
  unfold lookupPath
  rw [List.find?_cons_of_pos _ (by simp)]
  rfl

/-- Witness for the amended C9 at a concrete activity: the write fails
after one byte, one error is charged, and the file holds that one
byte. -/
theorem c9_witness :
    processOne exDlOk (fun _ => none) exWf1 [] .gpx ⟨[], 0, 0, 0⟩
      ⟨7, none, none, none⟩ =
    { fs := [(pathOf [] .gpx ⟨7, none, none, none⟩,
              ([1, 2, 3] : List Nat).take 1)],
      downloaded := 0, skipped := 0, errors := 0 + 1 } :=
  (c9_partial_write exDlOk (fun _ => none) exWf1 [] .gpx ⟨[], 0, 0, 0⟩
    ⟨7, none, none, none⟩ [] [1, 2, 3] false 1 (by decide) rfl rfl).1

/-- Claim C9 counterexample: the claim as stated — on a write failure the
filesystem state at the target path is unchanged — is false: starting
from an empty directory, the failed write leaves a truncated file `[1]`
(a strict prefix of the resolved data `[1, 2, 3]`) at the path. -/
theorem c9_counterexample :
    lookupPath [] (pathOf [] .gpx ⟨7, none, none, none⟩) = none ∧
    (processOne exDlOk (fun _ => none) exWf1 [] .gpx ⟨[], 0, 0, 0⟩
      ⟨7, none, none, none⟩).errors = 1 ∧
    lookupPath (processOne exDlOk (fun _ => none) exWf1 [] .gpx ⟨[], 0, 0, 0⟩
      ⟨7, none, none, none⟩).fs (pathOf [] .gpx ⟨7, none, none, none⟩) =
      some [1] ∧
    ([1] : List Nat) ≠ [1, 2, 3] :=
  ⟨rfl, by decide, rfl, by decide⟩

/-- Claim C2 counterexample: the claim promises the decompressed bytes of
the FIRST `.fit` entry in archive order.  The code reads the first
matching NAME through `zip_ref.read`, and CPython resolves a name to
the last entry carrying it; with two entries both named `a.fit` the
first entry holds `[1]` but resolution returns `[2]`. -/
theorem c2_counterexample :
    (dupEntries.filter (fun x => fitSuffix x.1)).head? =
      some (['a', '.', 'f', 'i', 't'], [1]) ∧
    resolveFit dupPz [80, 75, 2] = .ok ([2], false) ∧
    ([2] : List Nat) ≠ [1] :=
  ⟨by decide, by rfl, by decide⟩

end Garmindl
